import Mathlib

/-!
# Shallow embedding of `bitmap.c` (DerrickGold/CStuff)

This file models the image-synthesis-and-encoding pipeline of `src/bitmap.c`:
the canvas (`newBitmap`), the midpoint/Bresenham circle rasterizer
(`drawCircle`, `circleBres`) and the bitmap encoder (`bitmapHeader`,
`writeBitmapData`, `saveBitmap`), and proves or refutes the specification
claims about them.

Machine integers of the C source are modelled as `Int` (with C's truncated
remainder `Int.tmod` where an operand can be negative) or as `Nat` where the
source values are non-negative.  Byte access into a stored 4-byte cell
follows the little-endian layout the specification's data model describes
(channel0 in the lowest-order byte).
-/

namespace CStuff

/-!  ## Rasterizer (bitmap.c lines 191-240)

`putPixel` stores a packed color into one canvas cell.  For the rasterizer
claims we record each `putPixel` call as a `Write` event carrying its
arguments `(x, y, red, green, blue)`; the trace of a rasterizer run is the
list of these events in call order.  -/

structure Write where
  x : Int
  y : Int
  red : Int
  green : Int
  blue : Int
deriving DecidableEq

/-- `drawCircle` (bitmap.c lines 198-213): computes one color from the local
coordinates `x, y` — `red = x % 255`, `green = y % 255`,
`blue = 255 - (x % 255)`, with C's truncated `%` (`Int.tmod`) — and issues
eight `putPixel` calls at the 8 octant-symmetric points around `(xc, yc)`. -/
def drawCircle (xc yc x y : Int) : List Write :=
  [⟨xc + x, yc + y, x.tmod 255, y.tmod 255, 255 - x.tmod 255⟩,
   ⟨xc - x, yc + y, x.tmod 255, y.tmod 255, 255 - x.tmod 255⟩,
   ⟨xc + x, yc - y, x.tmod 255, y.tmod 255, 255 - x.tmod 255⟩,
   ⟨xc - x, yc - y, x.tmod 255, y.tmod 255, 255 - x.tmod 255⟩,
   ⟨xc + y, yc + x, x.tmod 255, y.tmod 255, 255 - x.tmod 255⟩,
   ⟨xc - y, yc + x, x.tmod 255, y.tmod 255, 255 - x.tmod 255⟩,
   ⟨xc + y, yc - x, x.tmod 255, y.tmod 255, 255 - x.tmod 255⟩,
   ⟨xc - y, yc - x, x.tmod 255, y.tmod 255, 255 - x.tmod 255⟩]

/-- The 8 octant-symmetric points `(xc ± x, yc ± y)`, `(xc ± y, yc ± x)`
in the order `drawCircle` visits them. -/
def sym8 (xc yc x y : Int) : List (Int × Int) :=
  [(xc + x, yc + y), (xc - x, yc + y), (xc + x, yc - y), (xc - x, yc - y),
   (xc + y, yc + x), (xc - y, yc + x), (xc + y, yc - x), (xc - y, yc - x)]

/-- The updated `y` after one pass of the loop body of `circleBres`
(bitmap.c lines 231-237): decremented when `d > 0`, unchanged otherwise. -/
def nextY (y d : Int) : Int := if d > 0 then y - 1 else y

/-- The updated decision parameter after one pass of the loop body of
`circleBres` (bitmap.c lines 231-237).  In the source both updates read the
already-incremented `x` (and, in the first branch, the already-decremented
`y`): `d + 4*((x+1) - (y-1)) + 10` when `d > 0`, else `d + 4*(x+1) + 6`. -/
def nextD (x y d : Int) : Int :=
  if d > 0 then d + 4 * ((x + 1) - (y - 1)) + 10 else d + 4 * (x + 1) + 6

/-- The `while (y >= x)` loop of `circleBres` (bitmap.c lines 221-239),
written with explicit fuel so that it is structurally recursive and
executable.  Each iteration emits `drawCircle` at the entry `(x, y)`,
increments `x`, applies the decision update, and emits `drawCircle` again at
the updated pair.  `circleBres_terminates` proves the fuel used by
`circleBres` below is always enough, so the `fuel = 0` branch is dead. -/
def circleBresLoopFuel : Nat → Int → Int → Int → Int → Int → List Write
  | 0, _, _, _, _, _ => []
  | n + 1, xc, yc, x, y, d =>
    if y ≥ x then
      drawCircle xc yc x y ++ drawCircle xc yc (x + 1) (nextY y d) ++
        circleBresLoopFuel n xc yc (x + 1) (nextY y d) (nextD x y d)
    else []

/-- Whether the loop of `circleBres` reaches its exit (`y < x`) within the
given fuel; mirrors `circleBresLoopFuel` iteration for iteration. -/
def circleBresLoopTerm : Nat → Int → Int → Int → Bool
  | 0, _, _, _ => false
  | n + 1, x, y, d =>
    if y ≥ x then circleBresLoopTerm n (x + 1) (nextY y d) (nextD x y d)
    else true

/-- `circleBres` (bitmap.c lines 217-240): starts at `x = 0`, `y = r`,
`d = 3 - 2*r` and runs the loop.  The fuel `r.toNat + 2` exceeds the loop's
iteration count for every integer `r` (`circleBres_terminates`), so this is
the exact trace of the C loop. -/
def circleBres (xc yc r : Int) : List Write :=
  circleBresLoopFuel (r.toNat + 2) xc yc 0 r (3 - 2 * r)

/-!  ## Canvas creation (bitmap.c lines 160-182)

`newBitmap` performs two `calloc` calls whose success is outside the
program's control; the two `Bool` arguments are the oracle for them.  The
source contains no check of `width` or `height`: it stores them as given and
sizes the pixel buffer as `width * height` cells.  `calloc` zero-fills, so a
successfully created canvas has every cell `0`.  -/

structure BitmapCanvas where
  width : Int
  height : Int
  pix : Nat → Nat

/-- `newBitmap` (bitmap.c lines 160-182): fails (returns `NULL`, here
`none`) exactly when one of its two allocations fails — on pixel-buffer
failure the partially built record is freed first (line 177).  No dimension
validation appears anywhere in the function. -/
def newBitmap (structOk bufferOk : Bool) (width height : Int) :
    Option BitmapCanvas :=
  if !structOk then none
  else if !bufferOk then none
  else some ⟨width, height, fun _ => 0⟩

/-!  ## Encoder (bitmap.c lines 11-158)  -/

/-- `BMP_BYTES_PER_LINE` (bitmap.c line 67):
`(((width * bits) + 31) / 32) * 4`.  For the non-negative values the encoder
feeds it, C integer division is `Nat` division. -/
def BMP_BYTES_PER_LINE (width bits : Nat) : Nat :=
  ((width * bits + 31) / 32) * 4

/-- `GET_PIXEL_INDEX` (bitmap.c line 75): `x + y * width`. -/
def GET_PIXEL_INDEX (x y width : Nat) : Nat := x + y * width

/-- `struct bitmapHeader` (bitmap.c lines 11-30): the packed 54-byte header.
`bfType0`/`bfType1` are the two magic characters; the remaining fields are
the C `int`/`short` fields in declaration order. -/
structure BitmapHeader where
  bfType0 : Nat
  bfType1 : Nat
  fileSize : Nat
  reserved : Nat
  imageOffset : Nat
  headerSize : Nat
  width : Nat
  height : Nat
  planes : Nat
  bitCount : Nat
  compression : Nat
  imageSize : Nat
  xPixelsPerMeter : Nat
  yPixelsPerMeter : Nat
  colorsUsed : Nat
  colorsImportant : Nat

/-- Four little-endian bytes of a 4-byte field. -/
def le4 (n : Nat) : List Nat :=
  [n % 256, n / 256 % 256, n / 256 ^ 2 % 256, n / 256 ^ 3 % 256]

/-- Two little-endian bytes of a 2-byte field. -/
def le2 (n : Nat) : List Nat := [n % 256, n / 256 % 256]

/-- The byte stream `fwrite(&bitmap->header, sizeof(struct bitmapHeader), 1,
output)` emits (bitmap.c line 112): the packed struct's fields in
declaration order, little-endian, with no padding — 54 bytes. -/
def serializeHeader (h : BitmapHeader) : List Nat :=
  [h.bfType0, h.bfType1] ++ le4 h.fileSize ++ le4 h.reserved ++
    le4 h.imageOffset ++ le4 h.headerSize ++ le4 h.width ++ le4 h.height ++
    le2 h.planes ++ le2 h.bitCount ++ le4 h.compression ++ le4 h.imageSize ++
    le4 h.xPixelsPerMeter ++ le4 h.yPixelsPerMeter ++ le4 h.colorsUsed ++
    le4 h.colorsImportant

/-- The header fields as `writeBitmapData` populates them (bitmap.c lines
89-109): magic `"BM"` (bytes 66, 77), `headerSize = 40`,
`imageOffset = sizeof(struct bitmapHeader) = 54`, `planes = 1`,
`bitCount = 24`, `imageSize = bytesPerRow * height`,
`fileSize = imageSize + imageOffset`, all remaining fields `0`. -/
def mkHeader (width height : Nat) : BitmapHeader :=
  ⟨66, 77, BMP_BYTES_PER_LINE width 24 * height + 54, 0, 54, 40,
   width, height, 1, 24, 0, BMP_BYTES_PER_LINE width 24 * height, 0, 0, 0, 0⟩

/-- One emitted scanline (bitmap.c lines 122-141).  The row buffer
`lineBuffer` is an uninitialized stack array reused for every row; `junk i`
is the byte it happens to hold at index `i` before the loop.  The inner loop
overwrites only indices `0 ≤ i < width * 3`, putting byte `i % 3` of the
cell at column `i / 3` there; every other index — the padding region —
retains `junk i` (no zero-fill appears in the source). -/
def rowBytes (width : Nat) (pix : Nat → Nat) (y : Nat) (junk : Nat → Nat) :
    List Nat :=
  (List.range (BMP_BYTES_PER_LINE width 24)).map fun i =>
    if i < width * 3 then pix (GET_PIXEL_INDEX (i / 3) y width) / 256 ^ (i % 3) % 256
    else junk i

/-- The full byte stream `writeBitmapData` emits (bitmap.c lines 87-145):
the 54-byte header, then one `bytesPerRow`-byte scanline per canvas row,
bottom-up (`y` from `height - 1` down to `0`). -/
def writeBitmapData (width height : Nat) (pix : Nat → Nat)
    (junk : Nat → Nat) : List Nat :=
  serializeHeader (mkHeader width height) ++
    ((List.range height).map fun k => rowBytes width pix (height - 1 - k) junk).flatten

/-- The return value of `writeBitmapData` (bitmap.c line 144): the function
performs `height + 1` `fwrite` calls (header plus one per row), discards
every result — `writeOk i` is the oracle for the `i`-th call — and returns
the constant `0`. -/
def writeBitmapStatus (writeOk : Nat → Bool) (height : Nat) : Int :=
  (List.range (height + 1)).foldl (fun acc i => let _ := writeOk i; acc) 0

/-- `saveBitmap` (bitmap.c lines 148-158): returns `-1` when `fopen` fails
(`openOk = false`); otherwise calls `writeBitmapData`, discards its return
value, closes the file and returns `0`.  No `fwrite` result is ever
inspected on this path. -/
def saveBitmap (openOk : Bool) (writeOk : Nat → Bool) (height : Nat) : Int :=
  if openOk then
    let _ := writeBitmapStatus writeOk height
    0
  else -1

/-!  ## Helper lemmas  -/

theorem serializeHeader_length (h : BitmapHeader) :
    (serializeHeader h).length = 54 := by
  simp [serializeHeader, le4, le2]

theorem rowBytes_length (w : Nat) (pix : Nat → Nat) (y : Nat)
    (junk : Nat → Nat) :
    (rowBytes w pix y junk).length = BMP_BYTES_PER_LINE w 24 := by
  simp [rowBytes]

theorem three_mul_le_stride (w : Nat) : w * 3 ≤ BMP_BYTES_PER_LINE w 24 := by
  unfold BMP_BYTES_PER_LINE
  omega

theorem flatten_length_const (L : List (List Nat)) (s : Nat)
    (hs : ∀ l ∈ L, l.length = s) : L.flatten.length = L.length * s := by
  induction L with
  | nil => simp
  | cons a t ih =>
    have ha : a.length = s := hs a (by simp)
    have ht := ih fun l hl => hs l (by simp [hl])
    simp only [List.flatten_cons, List.length_append, List.length_cons, ha, ht]
    ring

theorem flatten_getElem_const (L : List (List Nat)) (s : Nat)
    (hs : ∀ l ∈ L, l.length = s) (k r : Nat) (hk : k < L.length)
    (hr : r < s) : L.flatten[k * s + r]? = L[k]?.bind (fun l => l[r]?) := by
  induction L generalizing k with
  | nil => simp at hk
  | cons a t ih =>
    have ha : a.length = s := hs a (by simp)
    cases k with
    | zero =>
      simp only [List.flatten_cons, Nat.zero_mul, Nat.zero_add]
      rw [List.getElem?_append_left (by omega)]
      simp
    | succ k =>
      simp only [List.flatten_cons]
      rw [show (k + 1) * s + r = a.length + (k * s + r) by rw [ha]; ring]
      rw [List.getElem?_append_right (by omega)]
      rw [Nat.add_sub_cancel_left]
      rw [ih (fun l hl => hs l (by simp [hl])) k (by simpa using hk)]
      simp

/-!  ## Claims about the rasterizer  -/

/-- **C1** — counterexample.  The claim says every emission step with local
coordinates `(x, y)` is colored `channel0 = x mod 256`,
`channel1 = y mod 256`, `channel2 = 255 - (x mod 256)`.  The source
(bitmap.c lines 201-203) uses `% 255`, not `% 256`.  The very first
emission step of `circleBres 0 0 255` has local coordinates `(0, 255)` and
its first written point is `(0 + 0, 0 + 255)` with green channel
`255 % 255 = 0`, while the claim's formula demands `255 mod 256 = 255`. -/
theorem drawCircle_color_mod256_cex :
    (circleBres 0 0 255).head? = some ⟨0 + 0, 0 + 255, 0, 0, 255⟩ ∧
    (0 : Int) ≠ 255 % 256 :=
  ⟨rfl, by decide⟩

/-- **C1** — amended.  For every emission step of the rasterizer with local
coordinates `(x, y)`, all 8 points written in that step carry the same one
color `channel0 = x % 255`, `channel1 = y % 255`,
`channel2 = 255 - (x % 255)` (C truncated remainder, modulus 255 — not 256
as the claim stated). -/
theorem drawCircle_color_mod255 (xc yc x y : Int) :
    (drawCircle xc yc x y).map (fun w => (w.red, w.green, w.blue)) =
      List.replicate 8 (x.tmod 255, y.tmod 255, 255 - x.tmod 255) := rfl

/-- **C5**.  `drawCircle(canvas, 5, 5, 0)` — i.e. `circleBres` with center
`(5, 5)` and radius `0` — terminates after exactly one loop pass: its trace
is exactly the two emission passes of that single iteration, the first of
which writes 8 coincident points at the center `(5, 5)`; the loop exit is
reached within fuel 2 (state `x = 0, y = 0, d = 3`), so there is no
unbounded looping and no write beyond the emissions the algorithm
specifies. -/
theorem circleBres_radius_zero :
    circleBres 5 5 0 = drawCircle 5 5 0 0 ++ drawCircle 5 5 1 (-1) ∧
    (drawCircle 5 5 0 0).map (fun w => (w.x, w.y)) =
      List.replicate 8 (5, 5) ∧
    circleBresLoopTerm 2 0 0 3 = true := by
  refine ⟨by decide, rfl, by decide⟩

/-- **C8**.  In every iteration of the rasterizer loop (entered when
`y ≥ x`), the 8 symmetric points `(xc ± x, yc ± y)`, `(xc ± y, yc ± x)` are
all written, duplicates included, in two emission passes: once with the
`(x, y)` at loop entry and once with the pair obtained after the `x`
increment and the decision-parameter update. -/
theorem circleBres_iteration (n : Nat) (xc yc x y d : Int) (h : y ≥ x) :
    circleBresLoopFuel (n + 1) xc yc x y d =
      drawCircle xc yc x y ++ drawCircle xc yc (x + 1) (nextY y d) ++
        circleBresLoopFuel n xc yc (x + 1) (nextY y d) (nextD x y d) ∧
    (drawCircle xc yc x y).map (fun w => (w.x, w.y)) = sym8 xc yc x y ∧
    (drawCircle xc yc (x + 1) (nextY y d)).map (fun w => (w.x, w.y)) =
      sym8 xc yc (x + 1) (nextY y d) := by
  refine ⟨?_, rfl, rfl⟩
  simp [circleBresLoopFuel, h]

/-- **C8** — witness at the concrete entry state `x = 0, y = 0, d = 3`. -/
theorem circleBres_iteration_witness :
    circleBresLoopFuel (0 + 1) 0 0 0 0 3 =
      drawCircle 0 0 0 0 ++ drawCircle 0 0 (0 + 1) (nextY 0 3) ++
        circleBresLoopFuel 0 0 0 (0 + 1) (nextY 0 3) (nextD 0 0 3) ∧
    (drawCircle 0 0 0 0).map (fun w => (w.x, w.y)) = sym8 0 0 0 0 ∧
    (drawCircle 0 0 (0 + 1) (nextY 0 3)).map (fun w => (w.x, w.y)) =
      sym8 0 0 (0 + 1) (nextY 0 3) :=
  circleBres_iteration 0 0 0 0 0 3 (by decide)

/-- **C10**.  The rasterizer loop terminates for every integer radius `r`
(including `r ≤ 0`): each iteration increments `x` by 1 and never increases
`y`, so the measure `y - x` strictly decreases; consequently the loop exits
within `(y - x + 1).toNat` iterations from any state, the trace does not
depend on the fuel once it exceeds that bound, and the fuel `r.toNat + 2`
used by `circleBres` always suffices from the initial state
`x = 0, y = r, d = 3 - 2r`. -/
theorem circleBres_terminates :
    (∀ x y d : Int, y ≥ x → nextY y d ≤ y ∧ nextY y d - (x + 1) < y - x) ∧
    (∀ (n : Nat) (x y d : Int), (y - x + 1).toNat < n →
      circleBresLoopTerm n x y d = true) ∧
    (∀ (n m : Nat) (xc yc x y d : Int), (y - x + 1).toNat < n →
      (y - x + 1).toNat < m →
      circleBresLoopFuel n xc yc x y d = circleBresLoopFuel m xc yc x y d) ∧
    (∀ r : Int, circleBresLoopTerm (r.toNat + 2) 0 r (3 - 2 * r) = true) := by
  have hterm : ∀ (n : Nat) (x y d : Int), (y - x + 1).toNat < n →
      circleBresLoopTerm n x y d = true := by
    intro n
    induction n with
    | zero => intro x y d h; omega
    | succ n ih =>
      intro x y d h
      by_cases hyx : y ≥ x
      · have hnext : nextY y d ≤ y ∧ y - 1 ≤ nextY y d := by
          unfold nextY; split <;> omega
        simp only [circleBresLoopTerm, if_pos hyx]
        exact ih (x + 1) (nextY y d) (nextD x y d) (by omega)
      · simp only [circleBresLoopTerm, if_neg hyx]
  refine ⟨?_, hterm, ?_, ?_⟩
  · intro x y d h
    constructor <;> (unfold nextY; split <;> omega)
  · intro n
    induction n with
    | zero => intro m xc yc x y d h hm; omega
    | succ n ih =>
      intro m xc yc x y d h hm
      cases m with
      | zero => omega
      | succ m =>
        by_cases hyx : y ≥ x
        · have hnext : nextY y d ≤ y ∧ y - 1 ≤ nextY y d := by
            unfold nextY; split <;> omega
          have hrec := ih m xc yc (x + 1) (nextY y d) (nextD x y d)
            (by omega) (by omega)
          simp only [circleBresLoopFuel, if_pos hyx, hrec]
        · simp only [circleBresLoopFuel, if_neg hyx]
  · intro r
    apply hterm
    omega

/-- **C10** — witness: the per-iteration facts at state `x = 0, y = 0,
d = 3`, loop exit within fuel 2 from that state, and fuel-independence of
the radius-0 trace at center `(5, 5)`. -/
theorem circleBres_terminates_witness :
    (nextY 0 3 ≤ 0 ∧ nextY 0 3 - (0 + 1) < 0 - 0) ∧
    circleBresLoopTerm 2 0 0 3 = true ∧
    circleBresLoopFuel 2 5 5 0 0 3 = circleBresLoopFuel 9 5 5 0 0 3 ∧
    circleBresLoopTerm ((0 : Int).toNat + 2) 0 0 (3 - 2 * 0) = true :=
  ⟨circleBres_terminates.1 0 0 3 (by decide),
   circleBres_terminates.2.1 2 0 0 3 (by decide),
   circleBres_terminates.2.2.1 2 9 5 5 0 0 3 (by decide) (by decide),
   circleBres_terminates.2.2.2 0⟩

/-!  ## Claims about canvas creation and the output sink  -/

/-- **C3** — counterexample.  The claim says `create(width, height)` fails
whenever `width ≤ 0` or `height ≤ 0`.  `newBitmap` (bitmap.c lines 160-182)
contains no dimension check: with both allocations succeeding,
`newBitmap(-1, -1)` sizes the pixel buffer as `(-1) * (-1) = 1` cell and
returns a canvas, although `-1 ≤ 0`. -/
theorem newBitmap_accepts_nonpositive_dims :
    (newBitmap true true (-1) (-1)).isSome = true ∧ (-1 : Int) ≤ 0 :=
  ⟨rfl, by decide⟩

/-- **C3** — amended.  `newBitmap` fails (returns no canvas) exactly when
one of its two allocations fails — dimensions are not validated — and on
success there is no partial canvas: the returned canvas carries the
requested dimensions and every cell is zero-initialized (`calloc`). -/
theorem newBitmap_spec (structOk bufferOk : Bool) (w h : Int) :
    (newBitmap structOk bufferOk w h).isSome = (structOk && bufferOk) ∧
    (∀ c, newBitmap structOk bufferOk w h = some c →
      c.width = w ∧ c.height = h ∧ ∀ i, c.pix i = 0) := by
  refine ⟨by cases structOk <;> cases bufferOk <;> rfl, ?_⟩
  intro c hc
  cases structOk with
  | false => simp [newBitmap] at hc
  | true =>
    cases bufferOk with
    | false => simp [newBitmap] at hc
    | true =>
      have hceq : c = ⟨w, h, fun _ => 0⟩ := by
        simpa [newBitmap] using hc.symm
      subst hceq
      exact ⟨rfl, rfl, fun i => rfl⟩

/-- **C3** — witness: both allocations succeed at dimensions `3 × 2`. -/
theorem newBitmap_spec_witness :
    (⟨3, 2, fun _ => 0⟩ : BitmapCanvas).width = 3 ∧
    (⟨3, 2, fun _ => 0⟩ : BitmapCanvas).height = 2 ∧
    ∀ i, (⟨3, 2, fun _ => 0⟩ : BitmapCanvas).pix i = 0 :=
  (newBitmap_spec true true 3 2).2 ⟨3, 2, fun _ => 0⟩ rfl

/-- **C4** — counterexample.  The claim says the encoder signals `IOError`
if and only if the sink cannot be opened **or a write to it fails**.  In
the source every `fwrite` result is discarded (bitmap.c lines 112, 141) and
`writeBitmapData` returns the constant `0`, whose value `saveBitmap` also
ignores (line 155): with the open succeeding and every write failing,
`saveBitmap` still returns the success status `0`, not `-1`. -/
theorem saveBitmap_ignores_write_failure :
    saveBitmap true (fun _ => false) 2 = 0 ∧ (0 : Int) ≠ -1 :=
  ⟨rfl, by decide⟩

/-- **C4** — amended.  `saveBitmap` signals `IOError` (returns `-1`) if and
only if the sink cannot be opened; when the open succeeds it returns the
success status `0` regardless of whether any write failed (write results
are discarded, a single attempt, no retry). -/
theorem saveBitmap_status (openOk : Bool) (writeOk : Nat → Bool) (h : Nat) :
    (saveBitmap openOk writeOk h = -1 ↔ openOk = false) ∧
    (openOk = true → saveBitmap openOk writeOk h = 0) := by
  cases openOk <;> simp [saveBitmap]

/-- **C4** — witness: open succeeds, all writes succeed, status is `0`. -/
theorem saveBitmap_status_witness :
    (saveBitmap true (fun _ => true) 2 = -1 ↔ true = false) ∧
    saveBitmap true (fun _ => true) 2 = 0 :=
  ⟨(saveBitmap_status true (fun _ => true) 2).1,
   (saveBitmap_status true (fun _ => true) 2).2 rfl⟩

/-!  ## Claims about the encoder  -/

/-- **C2** — the code violates this claim.  `lineBuffer` (bitmap.c line
115) is an uninitialized stack array and no zero-fill of the padding region
appears anywhere in lines 114-142; the bytes past `width*3` up to the row
stride are emitted with whatever the buffer held.  Failing input: width 5,
height 1 (stride 16, one padding byte per row at row index 15, file offset
54 + 15 = 69), buffer residue byte 170: the encoder emits 170, the claim
requires 0. -/
theorem writeBitmapData_padding_not_zeroed :
    (writeBitmapData 5 1 (fun _ => 0) (fun _ => 170))[69]? = some 170 ∧
    (170 : Nat) ≠ 0 := by
  refine ⟨by decide, by decide⟩

/-- **C6** — counterexample to the example in the claim.  For width 4 the
stride is `((4*24 + 31) / 32) * 4 = 12`, not 16, and the 4 × 2 file is
`54 + 12*2 = 78` bytes, not 86 (the claim's own general formula applied to
width 4 contradicts its example numbers). -/
theorem encoder_example_size_cex :
    BMP_BYTES_PER_LINE 4 24 = 12 ∧ (12 : Nat) ≠ 16 ∧
    (writeBitmapData 4 2 (fun _ => 0) (fun _ => 0)).length = 78 ∧
    (78 : Nat) ≠ 86 := by
  refine ⟨by decide, by decide, by decide, by decide⟩

/-- **C6** — amended.  For every canvas with positive dimensions the
encoder emits exactly `54 + stride*height` bytes, the header's
pixel-data-size field is `stride*height` and its file-size field is that
plus 54; width 4, height 2 give stride **12** and a **78**-byte file whose
4-byte little-endian value at byte offset 10 is 54. -/
theorem encoder_size_spec (w h : Nat) (pix junk : Nat → Nat) (hw : 0 < w)
    (hh : 0 < h) :
    (writeBitmapData w h pix junk).length =
      54 + BMP_BYTES_PER_LINE w 24 * h ∧
    (mkHeader w h).imageSize = BMP_BYTES_PER_LINE w 24 * h ∧
    (mkHeader w h).fileSize = (mkHeader w h).imageSize + 54 ∧
    BMP_BYTES_PER_LINE 4 24 = 12 ∧
    (writeBitmapData 4 2 pix junk).length = 78 ∧
    (writeBitmapData 4 2 pix junk)[10]? = some 54 ∧
    (writeBitmapData 4 2 pix junk)[11]? = some 0 ∧
    (writeBitmapData 4 2 pix junk)[12]? = some 0 ∧
    (writeBitmapData 4 2 pix junk)[13]? = some 0 := by
  have hlen : ∀ (w h : Nat),
      (writeBitmapData w h pix junk).length =
        54 + BMP_BYTES_PER_LINE w 24 * h := by
    intro w h
    have hall : ∀ l ∈ (List.range h).map
        (fun k => rowBytes w pix (h - 1 - k) junk),
        l.length = BMP_BYTES_PER_LINE w 24 := by
      intro l hl
      simp only [List.mem_map] at hl
      obtain ⟨k, _, rfl⟩ := hl
      exact rowBytes_length w pix (h - 1 - k) junk
    unfold writeBitmapData
    rw [List.length_append, serializeHeader_length,
      flatten_length_const _ _ hall, List.length_map, List.length_range]
    ring
  have hb : ∀ i, i < 54 → (writeBitmapData 4 2 pix junk)[i]? =
      (serializeHeader (mkHeader 4 2))[i]? := by
    intro i hi
    unfold writeBitmapData
    exact List.getElem?_append_left
      (by rw [serializeHeader_length]; exact hi)
  refine ⟨hlen w h, rfl, rfl, by decide, (hlen 4 2).trans (by decide),
    ?_, ?_, ?_, ?_⟩
  · rw [hb 10 (by decide)]; decide
  · rw [hb 11 (by decide)]; decide
  · rw [hb 12 (by decide)]; decide
  · rw [hb 13 (by decide)]; decide

/-- **C6** — witness at width 4, height 2 on the all-zero canvas. -/
theorem encoder_size_spec_witness :
    0 < 4 ∧ 0 < 2 ∧
    (writeBitmapData 4 2 (fun _ => 0) (fun _ => 0)).length =
      54 + BMP_BYTES_PER_LINE 4 24 * 2 :=
  ⟨by decide, by decide,
   (encoder_size_spec 4 2 (fun _ => 0) (fun _ => 0)
     (by decide) (by decide)).1⟩

/-- **C7**.  For every positive width, the row stride computed by
`BMP_BYTES_PER_LINE` equals `⌈width*24 / 32⌉ * 4` (ceiling division), is
divisible by 4, and is at least `width*3`. -/
theorem BMP_BYTES_PER_LINE_spec (w : Nat) (hw : 0 < w) :
    BMP_BYTES_PER_LINE w 24 = ((w * 24) ⌈/⌉ 32) * 4 ∧
    BMP_BYTES_PER_LINE w 24 % 4 = 0 ∧
    w * 3 ≤ BMP_BYTES_PER_LINE w 24 := by
  refine ⟨?_, ?_, three_mul_le_stride w⟩
  · rw [Nat.ceilDiv_eq_add_pred_div]
    unfold BMP_BYTES_PER_LINE
    omega
  · unfold BMP_BYTES_PER_LINE
    omega

/-- **C7** — witness at width 5 (the spec's non-multiple-of-4 example). -/
theorem BMP_BYTES_PER_LINE_spec_witness :
    BMP_BYTES_PER_LINE 5 24 = ((5 * 24) ⌈/⌉ 32) * 4 ∧
    BMP_BYTES_PER_LINE 5 24 % 4 = 0 ∧
    5 * 3 ≤ BMP_BYTES_PER_LINE 5 24 :=
  BMP_BYTES_PER_LINE_spec 5 (by decide)

/-- **C9**.  The encoder emits scanlines bottom-up: the `k`-th emitted
scanline (`k = 0` first) is canvas row `height - 1 - k`, and within it the
cell at column `x` contributes its three lowest-order bytes to row
positions `3x`, `3x+1`, `3x+2` — so the file byte at offset
`54 + k*stride + (3x + b)` is byte `b` of the cell at
`GET_PIXEL_INDEX x (height-1-k) width`. -/
theorem writeBitmapData_pixel_layout (w h : Nat) (pix junk : Nat → Nat)
    (k x b : Nat) (hk : k < h) (hx : x < w) (hb : b < 3) :
    (writeBitmapData w h pix junk)[54 +
        (k * BMP_BYTES_PER_LINE w 24 + (3 * x + b))]? =
      some (pix (GET_PIXEL_INDEX x (h - 1 - k) w) / 256 ^ b % 256) := by
  have hstride : w * 3 ≤ BMP_BYTES_PER_LINE w 24 := three_mul_le_stride w
  have hidx : 3 * x + b < BMP_BYTES_PER_LINE w 24 := by omega
  have h54 := serializeHeader_length (mkHeader w h)
  have hall : ∀ l ∈ (List.range h).map
      (fun j => rowBytes w pix (h - 1 - j) junk),
      l.length = BMP_BYTES_PER_LINE w 24 := by
    intro l hl
    simp only [List.mem_map] at hl
    obtain ⟨j, _, rfl⟩ := hl
    exact rowBytes_length w pix (h - 1 - j) junk
  unfold writeBitmapData
  rw [List.getElem?_append_right (by omega)]
  rw [h54, Nat.add_sub_cancel_left]
  rw [flatten_getElem_const _ _ hall k (3 * x + b) (by simpa using hk) hidx]
  rw [List.getElem?_map, List.getElem?_range hk]
  simp only [Option.map_some', Option.some_bind]
  unfold rowBytes
  rw [List.getElem?_map, List.getElem?_range hidx]
  simp only [Option.map_some']
  rw [if_pos (by omega : 3 * x + b < w * 3)]
  have h3 : (3 * x + b) / 3 = x := by omega
  have h3b : (3 * x + b) % 3 = b := by omega
  rw [h3, h3b]

/-- **C9** — witness: canvas `2 × 2` with cell values equal to their linear
index; the first emitted scanline is canvas row 1, and the byte at file
offset `54 + 3` is the low byte of the cell at index `1 + 1*2 = 3`. -/
theorem writeBitmapData_pixel_layout_witness :
    0 < 2 ∧ 1 < 2 ∧ 0 < 3 ∧
    (writeBitmapData 2 2 (fun i => i) (fun _ => 7))[54 +
        (0 * BMP_BYTES_PER_LINE 2 24 + (3 * 1 + 0))]? =
      some (GET_PIXEL_INDEX 1 (2 - 1 - 0) 2 / 256 ^ 0 % 256) :=
  ⟨by decide, by decide, by decide,
   writeBitmapData_pixel_layout 2 2 (fun i => i) (fun _ => 7) 0 1 0
     (by decide) (by decide) (by decide)⟩

end CStuff
